import Mathlib

set_option maxRecDepth 4000

/-!
Shallow embedding of the ludo-frontend client-side synchronization core:
the state store / diff engine (`GameService.js`), the move-option parser,
the STOMP transport wrapper (`WebSocketService.js`), the animation-gated
move delivery (`MoveManager.js`) and the event bus (`EventBus.js`).
Side effects (eventBus.emit, stompClient.publish/subscribe) are made
explicit as returned event lists / call logs; timestamps (Date.now) and
console logging are omitted.
-/

namespace Ludo

/-! ### Data model (spec section 3, shapes used by GameService.js) -/

structure Position where
  row : Int
  col : Int
deriving DecidableEq, Repr

structure Piece where
  id : String
  color : String
  position : Position
  atHome : Bool
  inSafeZone : Bool
  finished : Bool
deriving DecidableEq, Repr

/-- The `{atHome, inSafeZone, finished}` object built for `fromState` / `toState`. -/
structure PieceFlags where
  atHome : Bool
  inSafeZone : Bool
  finished : Bool
deriving DecidableEq, Repr

/-- One record pushed by `calculatePieceMovements` (GameService.js lines 284-299). -/
structure Movement where
  pieceId : String
  color : String
  fromPos : Position
  toPos : Position
  fromState : PieceFlags
  toState : PieceFlags
deriving DecidableEq, Repr

structure Dice where
  die1 : Nat
  die2 : Nat
deriving DecidableEq, Repr

structure GameState where
  dice : Dice
  currentPlayerId : String
  currentPlayerName : String
  players : List String
  pieces : List Piece
  gameStatus : String
  gameOver : Bool
  winner : Option String
deriving DecidableEq, Repr

/-- Events emitted by `emitStateChangeEvents` / `updateGameState`
(`dice.updated`, `pieces.moved`, `turn.changed`, `game.ended`, `game.state.updated`).
The `timestamp` field of each JS payload is ambient (`Date.now()`) and omitted. -/
inductive GameEvent where
  | diceUpdated (oldDice : Option Dice) (newDice : Dice)
  | piecesMoved (movements : List Movement)
  | turnChanged (oldPlayer : Option String) (newPlayer : String) (playerName : String)
  | gameEnded (winner : Option String) (gameStatus : String)
  | stateUpdated (oldState : Option GameState) (newState : GameState)
deriving DecidableEq, Repr

/-! ### Diff engine (GameService.js lines 205-304) -/

/-- The position-difference test of `calculatePieceMovements`
(GameService.js lines 281-283). -/
abbrev posDiffers (op np : Piece) : Prop :=
  op.position.row ≠ np.position.row ∨ op.position.col ≠ np.position.col

/-- Body of the `newPieces.forEach` loop of `calculatePieceMovements`
(GameService.js lines 278-301): look up the same id in the old snapshot with
`oldPieces.find(...)`; if found and the position differs, produce the record. -/
def movementOf (oldPieces : List Piece) (newPiece : Piece) : Option Movement :=
  match oldPieces.find? (fun p => p.id == newPiece.id) with
  | some oldPiece =>
    if posDiffers oldPiece newPiece then
      some { pieceId := newPiece.id
             color := newPiece.color
             fromPos := oldPiece.position
             toPos := newPiece.position
             fromState := ⟨oldPiece.atHome, oldPiece.inSafeZone, oldPiece.finished⟩
             toState := ⟨newPiece.atHome, newPiece.inSafeZone, newPiece.finished⟩ }
    else none
  | none => none

/-- `calculatePieceMovements` (GameService.js lines 275-304): the forEach-with-
conditional-push loop is the filterMap of `movementOf` over the new pieces. -/
def calculatePieceMovements (oldPieces newPieces : List Piece) : List Movement :=
  newPieces.filterMap (movementOf oldPieces)

/-- `emitStateChangeEvents` (GameService.js lines 229-270), as the list of
events it emits, in emission order: dice, pieces, turn, game-over. -/
def emitStateChangeEvents (oldState : Option GameState) (newState : GameState) :
    List GameEvent :=
  let diceEvents :=
    match oldState with
    | none => [GameEvent.diceUpdated none newState.dice]
    | some o =>
      if o.dice.die1 ≠ newState.dice.die1 ∨ o.dice.die2 ≠ newState.dice.die2 then
        [GameEvent.diceUpdated (some o.dice) newState.dice]
      else []
  let pieceEvents :=
    match oldState with
    | none => []
    | some o =>
      let movements := calculatePieceMovements o.pieces newState.pieces
      if 0 < movements.length then [GameEvent.piecesMoved movements] else []
  let turnEvents :=
    match oldState with
    | none => [GameEvent.turnChanged none newState.currentPlayerId newState.currentPlayerName]
    | some o =>
      if o.currentPlayerId ≠ newState.currentPlayerId then
        [GameEvent.turnChanged (some o.currentPlayerId) newState.currentPlayerId
          newState.currentPlayerName]
      else []
  let gameOverEvents :=
    if newState.gameOver && (match oldState with | none => true | some o => !o.gameOver) then
      [GameEvent.gameEnded newState.winner newState.gameStatus]
    else []
  diceEvents ++ pieceEvents ++ turnEvents ++ gameOverEvents

/-- `updateGameState` (GameService.js lines 205-224): replace the canonical
snapshot unconditionally, emit the granular diff events, then always emit the
generic `game.state.updated` event carrying both snapshots. -/
def updateGameState (currentState : Option GameState) (newState : GameState) :
    Option GameState × List GameEvent :=
  (some newState,
   emitStateChangeEvents currentState newState
     ++ [GameEvent.stateUpdated currentState newState])

/-- Thread a sequence of snapshots through `updateGameState`, concatenating
the emitted events in order. -/
def runUpdates : Option GameState → List GameState → Option GameState × List GameEvent
  | st, [] => (st, [])
  | st, s :: rest =>
    let step := updateGameState st s
    let restRun := runUpdates step.1 rest
    (restRun.1, step.2 ++ restRun.2)

def isGameEnded : GameEvent → Bool
  | .gameEnded _ _ => true
  | _ => false

def isPiecesMoved : GameEvent → Bool
  | .piecesMoved _ => true
  | _ => false

/-! ### Move-option parser (GameService.js lines 325-361)

Strings are modelled as `List Char`; the JS regexes
`/\(Options:\s*(\d+)-(\d+)\)/` and `/^(\d+)\.\s*(.+)/` are unrolled into
explicit scanners. Both regexes are backtracking-free on their character
classes (`\s`, `\d` and the literal separators are disjoint), except that
`\s*(.+)` gives one whitespace character back to `(.+)` when the remainder
is all whitespace. -/

/-- JS `\s` / `String.prototype.trim` whitespace, restricted to the ASCII
whitespace that can occur in the protocol text. -/
def jsSpace (c : Char) : Bool :=
  c == ' ' || c == '\t' || c == '\n' || c == '\r'

/-- The JS regex class `\\d` / a `parseInt` digit: an ASCII decimal digit,
characterized on the character code. -/
def isDigitChar (c : Char) : Bool :=
  48 ≤ c.toNat && c.toNat ≤ 57

/-- JS `parseInt` on a non-empty run of decimal digits. -/
def natOfDigits (ds : List Char) : Nat :=
  ds.foldl (fun n c => 10 * n + (c.toNat - '0'.toNat)) 0

def listStartsWith : List Char → List Char → Bool
  | [], _ => true
  | _ :: _, [] => false
  | p :: ps, c :: cs => p == c && listStartsWith ps cs

/-- JS `String.prototype.trim`. -/
def jsTrim (s : List Char) : List Char :=
  ((s.dropWhile jsSpace).reverse.dropWhile jsSpace).reverse

/-- `message.split('\n')`: JS split always yields at least one (possibly
empty) segment. -/
def splitLines : List Char → List (List Char)
  | [] => [[]]
  | c :: rest =>
    if c == '\n' then [] :: splitLines rest
    else
      match splitLines rest with
      | [] => [[c]]
      | l :: ls => (c :: l) :: ls

/-- Try `/\(Options:\s*(\d+)-(\d+)\)/` anchored at the head of `s`,
returning the two captured numbers. -/
def matchOptionsRangeAt (s : List Char) : Option (Nat × Nat) :=
  if listStartsWith "(Options:".data s then
    let r1 := (s.drop 9).dropWhile jsSpace
    let ds1 := r1.takeWhile isDigitChar
    if ds1.isEmpty then none
    else
      match r1.drop ds1.length with
      | '-' :: r2 =>
        let ds2 := r2.takeWhile isDigitChar
        if ds2.isEmpty then none
        else
          match r2.drop ds2.length with
          | ')' :: _ => some (natOfDigits ds1, natOfDigits ds2)
          | _ => none
      | _ => none
  else none

/-- `message.match(/\(Options:\s*(\d+)-(\d+)\)/)`: first match anywhere in
the string. -/
def searchOptionsRange : List Char → Option (Nat × Nat)
  | [] => none
  | c :: rest =>
    match matchOptionsRangeAt (c :: rest) with
    | some r => some r
    | none => searchOptionsRange rest

/-- One `MoveOption` object as built by `parseMoveOptions`. -/
structure MoveOption where
  number : Nat
  description : String
  originalLine : String
deriving DecidableEq, Repr

/-- `line.match(/^(\d+)\.\s*(.+)/)`, returning the parsed number and the
raw second capture group. When everything after `<digits>.` is whitespace,
`\s*` backtracks one character so that `(.+)` still matches. -/
def matchNumberedLine (line : List Char) : Option (Nat × List Char) :=
  let ds := line.takeWhile isDigitChar
  if ds.isEmpty then none
  else
    match line.drop ds.length with
    | '.' :: rest =>
      let body := rest.dropWhile jsSpace
      if !body.isEmpty then some (natOfDigits ds, body)
      else
        match rest.reverse with
        | [] => none
        | c :: _ => some (natOfDigits ds, [c])
    | _ => none

/-- The `lines.forEach` branch of `parseMoveOptions` (GameService.js lines
346-356): each line matching `^(\d+)\.\s*(.+)` yields one option with the
trimmed description and the trimmed original line. -/
def parseNumberedLines (lines : List (List Char)) : List MoveOption :=
  lines.filterMap (fun line =>
    (matchNumberedLine line).map (fun m =>
      { number := m.1
        description := String.mk (jsTrim m.2)
        originalLine := String.mk (jsTrim line) }))

/-- The `for (let i = start; i <= end; i++)` loop of `parseMoveOptions`
(GameService.js lines 338-344). -/
def rangeOptions (start stop : Nat) : List MoveOption :=
  (List.range' start (stop + 1 - start)).map (fun i =>
    { number := i
      description := "Game option " ++ toString i
      originalLine := toString i ++ ". Game option " ++ toString i })

/-- `parseMoveOptions` (GameService.js lines 325-361). -/
def parseMoveOptions (message : String) : List MoveOption :=
  let lines := splitLines message.data
  match searchOptionsRange message.data with
  | some m =>
    if lines.length == 1 then rangeOptions m.1 m.2
    else parseNumberedLines lines
  | none => parseNumberedLines lines

/-! ### Animation-gated move delivery (MoveManager.js)

Rendering state (the PIXI panel, highlights) is abstracted away; a call of
`createMovePanel` — the point where a batch reaches the UI — is recorded in
the `delivered` log. -/

structure MoveManagerState where
  isAnimating : Bool
  pendingMoves : Option (List MoveOption)
  isProcessingMove : Bool
  currentMoves : List MoveOption
  delivered : List (List MoveOption)
deriving DecidableEq, Repr

/-- `showAvailableMoves` (MoveManager.js lines 39-65): while animating, the
batch only overwrites `pendingMoves`; otherwise it is shown (panel created =
appended to `delivered`). -/
def showAvailableMoves (s : MoveManagerState) (moves : List MoveOption) : MoveManagerState :=
  if s.isAnimating then { s with pendingMoves := some moves }
  else
    { s with isProcessingMove := false
             currentMoves := moves
             delivered := s.delivered ++ [moves] }

/-- `onAnimationComplete` (MoveManager.js lines 273-285): deliver the pending
batch (if any), clear it, reset the processing flag. -/
def onAnimationComplete (s : MoveManagerState) : MoveManagerState :=
  let s1 :=
    match s.pendingMoves with
    | some pending => { showAvailableMoves s pending with pendingMoves := none }
    | none => s
  { s1 with isProcessingMove := false }

/-- `setAnimationState` (MoveManager.js lines 263-271). -/
def setAnimationState (s : MoveManagerState) (animating : Bool) : MoveManagerState :=
  let s1 := { s with isAnimating := animating }
  if animating then s1 else onAnimationComplete s1

/-! ### Transport / protocol router (WebSocketService.js)

The STOMP client is abstracted to a log `stompSubscribes` of the topics
passed to `stompClient.subscribe` (each call creates a fresh broker-side
subscription) and the `subscriptions` JS `Map` keyed by subscription name,
modelled as an insertion-ordered association list. -/

structure WSState where
  connected : Bool
  connecting : Bool
  sessionId : String
  currentGameId : Option String
  subscriptions : List (String × Nat)
  stompSubscribes : List String
deriving DecidableEq, Repr

/-- JS `Map.prototype.set`: overwrite in place if the key exists, else append. -/
def mapSet (m : List (String × Nat)) (k : String) (v : Nat) : List (String × Nat) :=
  if m.any (fun p => p.1 == k) then
    m.map (fun p => if p.1 == k then (k, v) else p)
  else m ++ [(k, v)]

/-- Word characters of the JS regex class `\w`. -/
def isWordChar (c : Char) : Bool :=
  c.isAlphanum || c == '_'

/-- Try `/Game (\w+) created/` anchored at the head of `s`. The `\w+` run is
maximal; since a space is not a word character no shorter run can be followed
by `" created"`, so no backtracking arises. -/
def matchGameCreatedAt (s : List Char) : Option (List Char) :=
  if listStartsWith "Game ".data s then
    let rest := s.drop 5
    let run := rest.takeWhile isWordChar
    if run.isEmpty then none
    else if listStartsWith " created".data (rest.drop run.length) then some run
    else none
  else none

def searchGameCreated : List Char → Option (List Char)
  | [] => none
  | c :: rest =>
    match matchGameCreatedAt (c :: rest) with
    | some r => some r
    | none => searchGameCreated rest

/-- `extractGameId` (WebSocketService.js lines 290-293):
`message.match(/Game (\w+) created/)`. -/
def extractGameId (message : String) : Option String :=
  match searchGameCreated message.data with
  | some run => some (String.mk run)
  | none => none

/-- `subscribeToGameEvents` (WebSocketService.js lines 138-150): always calls
`stompClient.subscribe` on the game topic, then stores the returned handle in
the `subscriptions` map under `game.<id>.events`. -/
def subscribeToGameEvents (s : WSState) (gameId : String) : WSState :=
  let topic := "/topic/game/" ++ gameId ++ "/events"
  let handle := s.stompSubscribes.length
  { s with stompSubscribes := s.stompSubscribes ++ [topic]
           subscriptions := mapSet s.subscriptions ("game." ++ gameId ++ ".events") handle }

/-- `handleGameCreated` (WebSocketService.js lines 262-272): extract the game
id from the ack text; on success store it and subscribe, otherwise only log. -/
def handleGameCreated (s : WSState) (message : String) : WSState :=
  match extractGameId message with
  | some gameId => subscribeToGameEvents { s with currentGameId := some gameId } gameId
  | none => s

inductive ConnectOutcome where
  | resolvedImmediately
  | attemptStarted
deriving DecidableEq, Repr

/-- `connect` (WebSocketService.js lines 40-95): when already connected or
connecting it returns `Promise.resolve()` untouched; otherwise it sets the
`connecting` flag and starts the handshake (whose asynchronous completion is
outside this step). -/
def wsConnect (s : WSState) : WSState × ConnectOutcome :=
  if s.connected || s.connecting then (s, ConnectOutcome.resolvedImmediately)
  else ({ s with connecting := true }, ConnectOutcome.attemptStarted)

/-- Payload of an outbound frame (WebSocketService.js lines 313-342). -/
inductive Payload where
  | empty
  | forPlayer (playerId : String)
  | forJoin (gameId playerId : String)
  | forChoice (choice : Int)
deriving DecidableEq, Repr

inductive WSEvent where
  | wsError (msg : String)
deriving DecidableEq, Repr

/-- `send` (WebSocketService.js lines 299-311): when not connected, emit a
`websocket.error` event and return without publishing; otherwise publish the
frame. Returns (emitted events, published frames). -/
def wsSend (connected : Bool) (destination : String) (payload : Payload) :
    List WSEvent × List (String × Payload) :=
  if !connected then ([WSEvent.wsError "Not connected"], [])
  else ([], [(destination, payload)])

/-! ### GameService action methods (GameService.js lines 378-442) -/

structure GSState where
  currentState : Option GameState
  isConnected : Bool
  currentGameId : Option String
deriving DecidableEq, Repr

inductive GSEvent where
  | gameError (msg : String)
deriving DecidableEq, Repr

/-- Calls made into the WebSocketService by the action methods. -/
inductive WSCall where
  | wsCreateGame
  | wsJoinGame (gameId : String)
  | wsRollDice
  | wsMakeChoice (choice : Int)
  | wsGetGameState
deriving DecidableEq, Repr

/-- JS truthiness of `this.currentGameId` (a string or null). -/
def gameIdTruthy : Option String → Bool
  | none => false
  | some g => !(g == "")

/-- `createGame` (GameService.js lines 378-387). -/
def createGame (s : GSState) : GSState × List GSEvent × List WSCall :=
  if !s.isConnected then (s, [GSEvent.gameError "Not connected to server"], [])
  else (s, [], [WSCall.wsCreateGame])

/-- `joinGame` (GameService.js lines 389-404). -/
def joinGame (s : GSState) (gameId : String) : GSState × List GSEvent × List WSCall :=
  if !s.isConnected then (s, [GSEvent.gameError "Not connected to server"], [])
  else if gameId == "" || String.mk (jsTrim gameId.data) == "" then
    (s, [GSEvent.gameError "Invalid game ID"], [])
  else (s, [], [WSCall.wsJoinGame gameId])

/-- `rollDice` (GameService.js lines 406-415). -/
def rollDice (s : GSState) : GSState × List GSEvent × List WSCall :=
  if !s.isConnected || !gameIdTruthy s.currentGameId then
    (s, [GSEvent.gameError "Not in an active game"], [])
  else (s, [], [WSCall.wsRollDice])

/-- `selectPiece` (GameService.js lines 417-432); the `typeof` guard is
vacuous in the typed model, the sign guard is kept. -/
def selectPiece (s : GSState) (pieceIndex : Int) : GSState × List GSEvent × List WSCall :=
  if !s.isConnected || !gameIdTruthy s.currentGameId then
    (s, [GSEvent.gameError "Not in an active game"], [])
  else if pieceIndex < 0 then
    (s, [GSEvent.gameError "Invalid piece selection"], [])
  else (s, [], [WSCall.wsMakeChoice pieceIndex])

/-- `requestGameState` (GameService.js lines 434-442): the rejected branch
only logs to the console — it emits no event. -/
def requestGameState (s : GSState) : GSState × List GSEvent × List WSCall :=
  if !s.isConnected || !gameIdTruthy s.currentGameId then (s, [], [])
  else (s, [], [WSCall.wsGetGameState])

/-! ### Dice broadcast handler (GameService.js lines 159-175) -/

/-- JS `parseInt(str.charAt(i), 10)`: a single decimal digit parses to its
value, anything else (including the empty string from an out-of-range
`charAt`) gives `NaN`, modelled as `none`. -/
def jsParseIntDigit : Option Char → Option Nat
  | some c => if isDigitChar c then some (c.toNat - '0'.toNat) else none
  | none => none

/-- The `dice.updated` payload emitted by `handleDiceEvent`:
`{new: {die1, die2}}`, where either die may be `NaN`. -/
inductive DiceEvent where
  | diceUpdated (die1 die2 : Option Nat)
deriving DecidableEq, Repr

/-- `handleDiceEvent` (GameService.js lines 159-175): for a successful frame
with a (truthy, i.e. non-empty) message, parse the first two characters of
the concatenated roll string and emit `dice.updated`. -/
def handleDiceEvent (success : Bool) (message : String) : List DiceEvent :=
  if success && !message.isEmpty then
    [DiceEvent.diceUpdated (jsParseIntDigit (message.data.get? 0))
      (jsParseIntDigit (message.data.get? 1))]
  else []

/-! ### EventBus (EventBus.js lines 20-34)

A listener is a callback that either returns normally or throws; `emit`
wraps every invocation in `try`/`catch` (the catch branch only logs), so the
fold continues past a throwing listener and `emit` itself never throws. The
result collects the ids of the listeners invoked, in order. -/

structure Listener (α : Type) where
  id : Nat
  run : α → Except String Unit

/-- One iteration of the `forEach` loop of `emit`: the callback is invoked
inside `try { cb(data) } catch (error) { console.error(...) }`, so both
outcomes continue the loop normally, logging the invoked listener. -/
def emitStep {α : Type} (data : α) (invoked : List Nat) (l : Listener α) :
    Except String (List Nat) :=
  match l.run data with
  | Except.ok _ => Except.ok (invoked ++ [l.id])
  | Except.error _ => Except.ok (invoked ++ [l.id])

/-- `this.listeners`, the JS object mapping event names to callback arrays;
a missing key holds no listeners. -/
def Bus (α : Type) : Type := String → List (Listener α)

/-- `subscribe` (EventBus.js lines 42-61): push the callback onto the event's
listener array (creating it if absent). -/
def busSubscribe {α : Type} (bus : Bus α) (event : String) (l : Listener α) : Bus α :=
  fun e => if e == event then bus e ++ [l] else bus e

/-- `emit` (EventBus.js lines 20-34): fold the caught invocation over the
event's current listener array. -/
def busEmit {α : Type} (bus : Bus α) (event : String) (data : α) :
    Except String (List Nat) :=
  (bus event).foldlM (emitStep data) []

/-! ### Concrete values used by witnesses -/

def witnessPieceA : Piece :=
  { id := "red-1", color := "red", position := ⟨1, 2⟩
    atHome := false, inSafeZone := false, finished := false }

def witnessPieceB : Piece :=
  { id := "blue-1", color := "blue", position := ⟨3, 4⟩
    atHome := true, inSafeZone := false, finished := false }

def witnessStateA : GameState :=
  { dice := ⟨3, 4⟩, currentPlayerId := "user-1", currentPlayerName := "Alice"
    players := ["user-1", "user-2"], pieces := [witnessPieceA, witnessPieceB]
    gameStatus := "IN_PROGRESS", gameOver := false, winner := none }

/-- `witnessStateA` with the first piece advanced by one column. -/
def witnessStateB : GameState :=
  { witnessStateA with
      pieces := [{ witnessPieceA with position := ⟨1, 3⟩ }, witnessPieceB] }

def witnessStateOver : GameState :=
  { witnessStateA with gameOver := true, winner := some "user-1", gameStatus := "FINISHED" }

/-- A WebSocketService state right after a successful connect: personal
queue subscribed, no game yet. -/
def wsAfterConnect : WSState :=
  { connected := true, connecting := false, sessionId := "user-1234"
    currentGameId := none, subscriptions := [("personal.queue", 0)]
    stompSubscribes := ["/user/queue/response"] }

def gsDisconnected : GSState :=
  { currentState := none, isConnected := false, currentGameId := none }

/-! ## Lemmas about the diff engine -/

theorem movementOf_pieceId {old : List Piece} {np : Piece} {mv : Movement}
    (h : movementOf old np = some mv) : mv.pieceId = np.id := by
  cases hf : old.find? (fun p => p.id == np.id) with
  | none => simp [movementOf, hf] at h
  | some op =>
    simp only [movementOf, hf] at h
    by_cases hc : posDiffers op np
    · rw [if_pos hc] at h
      cases h
      rfl
    · rw [if_neg hc] at h
      exact absurd h (by simp)

theorem movementOf_isSome {old : List Piece} (ho : (old.map Piece.id).Nodup) (np : Piece) :
    (movementOf old np).isSome = true ↔
      ∃ op ∈ old, op.id = np.id ∧ posDiffers op np := by
  cases hf : old.find? (fun p => p.id == np.id) with
  | none =>
    rw [List.find?_eq_none] at hf
    simp only [movementOf]
    rw [List.find?_eq_none.mpr hf]
    simp only [Option.isSome_none, Bool.false_eq_true, false_iff]
    rintro ⟨op, hop, hid, _⟩
    exact hf op hop (by simp [hid])
  | some op =>
    have hmem : op ∈ old := List.mem_of_find?_eq_some hf
    have hid : op.id = np.id := by simpa using List.find?_some hf
    simp only [movementOf, hf]
    constructor
    · intro h
      by_cases hc : posDiffers op np
      · exact ⟨op, hmem, hid, hc⟩
      · rw [if_neg hc] at h
        simp at h
    · rintro ⟨op', hop', hid', hc'⟩
      have heq : op' = op := List.inj_on_of_nodup_map ho hop' hmem (by rw [hid', hid])
      subst heq
      rw [if_pos hc']
      rfl

theorem mem_calc_pieceId {old l : List Piece} {mv : Movement}
    (h : mv ∈ calculatePieceMovements old l) : mv.pieceId ∈ l.map Piece.id := by
  unfold calculatePieceMovements at h
  rw [List.mem_filterMap] at h
  obtain ⟨np, hnp, hmv⟩ := h
  rw [List.mem_map]
  exact ⟨np, hnp, (movementOf_pieceId hmv).symm⟩

theorem movementOf_self {l : List Piece} (h : (l.map Piece.id).Nodup) {p : Piece}
    (hp : p ∈ l) : movementOf l p = none := by
  cases hf : l.find? (fun q => q.id == p.id) with
  | none => simp [movementOf, hf]
  | some q =>
    have hqmem : q ∈ l := List.mem_of_find?_eq_some hf
    have hqid : q.id = p.id := by simpa using List.find?_some hf
    have heq : q = p := List.inj_on_of_nodup_map h hqmem hp hqid
    subst heq
    simp only [movementOf, hf]
    rw [if_neg]
    simp [posDiffers]

theorem calc_self {l : List Piece} (h : (l.map Piece.id).Nodup) :
    calculatePieceMovements l l = [] := by
  unfold calculatePieceMovements
  rw [List.filterMap_eq_nil_iff]
  intro p hp
  exact movementOf_self h hp

/-! ## Claim theorems: diff engine -/

/-- C5: updating with a snapshot equal to the current one emits no dice,
piece-movement, turn, or game-over event, but still emits the generic
`game.state.updated` event carrying both snapshots. The snapshot is assumed
to satisfy the data-model invariant that piece ids identify pieces uniquely. -/
theorem updateGameState_self (A : GameState) (h : (A.pieces.map Piece.id).Nodup) :
    updateGameState (some A) A = (some A, [GameEvent.stateUpdated (some A) A]) := by
  unfold updateGameState emitStateChangeEvents
  simp [calc_self h]

/-- Witness for C5 at a concrete two-piece snapshot. -/
theorem updateGameState_self_witness :
    updateGameState (some witnessStateA) witnessStateA =
      (some witnessStateA, [GameEvent.stateUpdated (some witnessStateA) witnessStateA]) :=
  updateGameState_self witnessStateA (by decide)

/-- Restriction of `emitStateChangeEvents` to game-over events: exactly the
edge-trigger condition of GameService.js lines 262-269. -/
theorem filter_gameEnded_emit (o : Option GameState) (n : GameState) :
    (emitStateChangeEvents o n).filter isGameEnded =
      if n.gameOver && (match o with | none => true | some s => !s.gameOver) then
        [GameEvent.gameEnded n.winner n.gameStatus]
      else [] := by
  unfold emitStateChangeEvents
  cases o <;>
    simp [isGameEnded, List.filter_append, apply_ite (List.filter isGameEnded)]

/-- C3: across snapshots whose gameOver flags are `[false, false, true, true,
true]`, `game.ended` fires exactly once — on the first not-over-to-over
transition (the third update, carrying that snapshot's winner) — and not at
all during the first two updates. -/
theorem gameEnded_edge_triggered (init : Option GameState) (s1 s2 s3 s4 s5 : GameState)
    (h1 : s1.gameOver = false) (h2 : s2.gameOver = false)
    (h3 : s3.gameOver = true) (h4 : s4.gameOver = true) (h5 : s5.gameOver = true) :
    (runUpdates init [s1, s2, s3, s4, s5]).2.filter isGameEnded
        = [GameEvent.gameEnded s3.winner s3.gameStatus]
    ∧ (runUpdates init [s1, s2]).2.filter isGameEnded = [] := by
  constructor <;>
    simp [runUpdates, updateGameState, List.filter_append, filter_gameEnded_emit,
      isGameEnded, h1, h2, h3, h4, h5]

/-- Witness for C3 at concrete snapshots. -/
theorem gameEnded_edge_triggered_witness :
    (runUpdates none
        [witnessStateA, witnessStateA, witnessStateOver, witnessStateOver,
          witnessStateOver]).2.filter isGameEnded
      = [GameEvent.gameEnded witnessStateOver.winner witnessStateOver.gameStatus]
    ∧ (runUpdates none [witnessStateA, witnessStateA]).2.filter isGameEnded = [] :=
  gameEnded_edge_triggered none witnessStateA witnessStateA witnessStateOver
    witnessStateOver witnessStateOver rfl rfl rfl rfl rfl

/-- Exactness of the piece diff: for every id, the batch holds one record
precisely when a piece with that id occurs in both snapshots with differing
positions, assuming unique piece ids in each snapshot. -/
theorem count_movements (old : List Piece) (ho : (old.map Piece.id).Nodup) (pid : String) :
    ∀ newPieces : List Piece, (newPieces.map Piece.id).Nodup →
      ((calculatePieceMovements old newPieces).filter (fun m => m.pieceId == pid)).length =
        if ∃ np ∈ newPieces, np.id = pid ∧ ∃ op ∈ old, op.id = pid ∧ posDiffers op np
        then 1 else 0 := by
  intro newPieces
  induction newPieces with
  | nil => intro _; simp [calculatePieceMovements]
  | cons np rest ih =>
    intro hn
    rw [List.map_cons, List.nodup_cons] at hn
    obtain ⟨hnp, hrest⟩ := hn
    have hrestcount := ih hrest
    cases hmv : movementOf old np with
    | none =>
      have hstep : calculatePieceMovements old (np :: rest) = calculatePieceMovements old rest := by
        simp [calculatePieceMovements, List.filterMap_cons, hmv]
      have hnone : ¬ ∃ op ∈ old, op.id = np.id ∧ posDiffers op np := by
        intro hex
        have hs := (movementOf_isSome ho np).mpr hex
        rw [hmv] at hs
        simp at hs
      have hiff : (∃ x ∈ np :: rest, x.id = pid ∧ ∃ op ∈ old, op.id = pid ∧ posDiffers op x) ↔
          (∃ x ∈ rest, x.id = pid ∧ ∃ op ∈ old, op.id = pid ∧ posDiffers op x) := by
        constructor
        · rintro ⟨x, hx, hxid, op, hop, hopid, hdiff⟩
          rcases List.mem_cons.mp hx with hhd | htl
          · subst hhd
            exact absurd ⟨op, hop, hopid.trans hxid.symm, hdiff⟩ hnone
          · exact ⟨x, htl, hxid, op, hop, hopid, hdiff⟩
        · rintro ⟨x, htl, hxid, hrest2⟩
          exact ⟨x, List.mem_cons_of_mem _ htl, hxid, hrest2⟩
      rw [hstep, hrestcount]
      exact (if_congr hiff rfl rfl).symm
    | some mv =>
      have hstep : calculatePieceMovements old (np :: rest) =
          mv :: calculatePieceMovements old rest := by
        simp [calculatePieceMovements, List.filterMap_cons, hmv]
      have hpid : mv.pieceId = np.id := movementOf_pieceId hmv
      have hsome : ∃ op ∈ old, op.id = np.id ∧ posDiffers op np :=
        (movementOf_isSome ho np).mp (by rw [hmv]; rfl)
      rw [hstep]
      by_cases hid : np.id = pid
      · have hkeep : ((fun m => m.pieceId == pid) mv) = true := by simp [hpid, hid]
        rw [List.filter_cons, if_pos hkeep]
        have htail :
            (calculatePieceMovements old rest).filter (fun m => m.pieceId == pid) = [] := by
          rw [List.filter_eq_nil_iff]
          intro m hm
          have hmemid := mem_calc_pieceId hm
          simp only [beq_iff_eq]
          intro hcontra
          exact hnp (by rw [hid, ← hcontra]; exact hmemid)
        rw [htail]
        have hcond :
            ∃ x ∈ np :: rest, x.id = pid ∧ ∃ op ∈ old, op.id = pid ∧ posDiffers op x := by
          obtain ⟨op, hop, hopid, hdiff⟩ := hsome
          exact ⟨np, List.mem_cons_self np rest, hid, op, hop, hopid.trans hid, hdiff⟩
        rw [if_pos hcond]
        rfl
      · have hdrop : ¬ ((fun m => m.pieceId == pid) mv) = true := by simp [hpid, hid]
        rw [List.filter_cons, if_neg hdrop]
        have hiff : (∃ x ∈ np :: rest, x.id = pid ∧ ∃ op ∈ old, op.id = pid ∧ posDiffers op x) ↔
            (∃ x ∈ rest, x.id = pid ∧ ∃ op ∈ old, op.id = pid ∧ posDiffers op x) := by
          constructor
          · rintro ⟨x, hx, hxid, hrest2⟩
            rcases List.mem_cons.mp hx with hhd | htl
            · subst hhd
              exact absurd hxid hid
            · exact ⟨x, htl, hxid, hrest2⟩
          · rintro ⟨x, htl, hxid, hrest2⟩
            exact ⟨x, List.mem_cons_of_mem _ htl, hxid, hrest2⟩
        rw [hrestcount]
        exact (if_congr hiff rfl rfl).symm

/-- C1: between two consecutive snapshots the movement batch has exactly one
record per piece id present in both snapshots with differing position, no
record for ids absent from the old snapshot, and an empty batch emits no
`pieces.moved` event. Piece ids are assumed unique per snapshot (data-model
invariant). -/
theorem pieceDiff_exact (oldS newS : GameState)
    (hn : (newS.pieces.map Piece.id).Nodup) (ho : (oldS.pieces.map Piece.id).Nodup) :
    (∀ pid : String,
      ((calculatePieceMovements oldS.pieces newS.pieces).filter
          (fun m => m.pieceId == pid)).length =
        if ∃ np ∈ newS.pieces, np.id = pid ∧
            ∃ op ∈ oldS.pieces, op.id = pid ∧ posDiffers op np
        then 1 else 0)
    ∧ (∀ pid : String, pid ∉ oldS.pieces.map Piece.id →
        ((calculatePieceMovements oldS.pieces newS.pieces).filter
            (fun m => m.pieceId == pid)).length = 0)
    ∧ (calculatePieceMovements oldS.pieces newS.pieces = [] →
        ∀ mvs, GameEvent.piecesMoved mvs ∉ emitStateChangeEvents (some oldS) newS) := by
  refine ⟨fun pid => count_movements _ ho pid _ hn, fun pid hpid => ?_, fun hempty mvs hmem => ?_⟩
  · rw [count_movements _ ho pid _ hn, if_neg]
    rintro ⟨np, _, _, op, hop, hopid, _⟩
    exact hpid (by rw [← hopid]; exact List.mem_map_of_mem Piece.id hop)
  · simp only [emitStateChangeEvents] at hmem
    rw [hempty] at hmem
    split_ifs at hmem <;> simp_all

/-- Witness for C1: one piece moved between two concrete snapshots yields
exactly one record for its id. -/
theorem pieceDiff_exact_witness :
    ((calculatePieceMovements witnessStateA.pieces witnessStateB.pieces).filter
        (fun m => m.pieceId == "red-1")).length = 1 := by
  have h := (pieceDiff_exact witnessStateA witnessStateB (by decide) (by decide)).1 "red-1"
  rw [h]
  decide

/-- C2: through the sequence [animation-start, batch-1, batch-2,
animation-complete], each batch arriving mid-animation only overwrites the
pending slot (nothing delivered), and completion delivers exactly the last
batch once and clears the slot. -/
theorem animationGate_latestWins (s0 : MoveManagerState) (b1 b2 : List MoveOption) :
    (showAvailableMoves (setAnimationState s0 true) b1).delivered = s0.delivered
    ∧ (showAvailableMoves (setAnimationState s0 true) b1).pendingMoves = some b1
    ∧ (showAvailableMoves (showAvailableMoves (setAnimationState s0 true) b1) b2).delivered
        = s0.delivered
    ∧ (showAvailableMoves (showAvailableMoves (setAnimationState s0 true) b1) b2).pendingMoves
        = some b2
    ∧ (setAnimationState
          (showAvailableMoves (showAvailableMoves (setAnimationState s0 true) b1) b2)
          false).delivered = s0.delivered ++ [b2]
    ∧ (setAnimationState
          (showAvailableMoves (showAvailableMoves (setAnimationState s0 true) b1) b2)
          false).pendingMoves = none := by
  simp [setAnimationState, showAvailableMoves, onAnimationComplete]

/-- C4 counterexample: processing "Game ABCD created" twice invokes the STOMP
client subscribe on the game topic twice — the duplicated ack does create a
second broker-side subscription. -/
theorem duplicateAck_subscribes_twice :
    (handleGameCreated (handleGameCreated wsAfterConnect "Game ABCD created")
        "Game ABCD created").stompSubscribes =
      ["/user/queue/response", "/topic/game/ABCD/events", "/topic/game/ABCD/events"] := by
  decide

/-- C4 amended: the duplicated ack extracts "ABCD" both times and re-invokes
the transport subscribe (second broker subscription), while the
`subscriptions` map, keyed by game id, still ends with exactly one entry for
the game — the second handle overwrites the first. -/
theorem duplicateAck_map_single_entry :
    extractGameId "Game ABCD created" = some "ABCD"
    ∧ (handleGameCreated wsAfterConnect "Game ABCD created").subscriptions =
        [("personal.queue", 0), ("game.ABCD.events", 1)]
    ∧ (handleGameCreated (handleGameCreated wsAfterConnect "Game ABCD created")
        "Game ABCD created").subscriptions =
        [("personal.queue", 0), ("game.ABCD.events", 2)]
    ∧ (handleGameCreated (handleGameCreated wsAfterConnect "Game ABCD created")
        "Game ABCD created").stompSubscribes.length = 2 + 1 := by
  decide

/-- A string without a newline splits into the single segment it is. -/
theorem splitLines_of_no_newline : ∀ s : List Char, Char.ofNat 10 ∉ s → splitLines s = [s] := by
  intro s
  induction s with
  | nil => intro _; rfl
  | cons c rest ih =>
    intro h
    have hc : (c == Char.ofNat 10) = false := by
      simp only [beq_eq_false_iff_ne, ne_eq]
      intro hcc
      exact h (by rw [hcc]; exact List.mem_cons_self _ _)
    have hr := ih (fun hm => h (List.mem_cons_of_mem _ hm))
    simp [splitLines, hc, hr]

/-- C6: the single-line prompt "(Options: 1-3)" parses to exactly the three
synthesized options 1..3; in general, any single-line message whose range
marker matches with bounds (a, b) parses to one synthesized option per
integer in [a, b]. -/
theorem parseMoveOptions_range :
    (parseMoveOptions "(Options: 1-3)" =
      [⟨1, "Game option 1", "1. Game option 1"⟩,
       ⟨2, "Game option 2", "2. Game option 2"⟩,
       ⟨3, "Game option 3", "3. Game option 3"⟩])
    ∧ ∀ (msg : String) (a b : Nat), searchOptionsRange msg.data = some (a, b) →
        Char.ofNat 10 ∉ msg.data →
        parseMoveOptions msg = rangeOptions a b := by
  constructor
  · decide
  · intro msg a b hsearch hnl
    have hlines : splitLines msg.data = [msg.data] := splitLines_of_no_newline _ hnl
    simp [parseMoveOptions, hsearch, hlines]

/-- Witness for C6 on a single-line message with an embedded range marker. -/
theorem parseMoveOptions_range_witness :
    parseMoveOptions "Choose (Options: 2-4)" = rangeOptions 2 4 :=
  parseMoveOptions_range.2 "Choose (Options: 2-4)" 2 4 (by decide) (by decide)

/-- C7 counterexample: `requestGameState` attempted while disconnected
returns without transmitting but emits no error event at all (it only logs
to the console), so not every rejected action produces an error event. -/
theorem requestGameState_silent_reject :
    requestGameState gsDisconnected = (gsDisconnected, [], []) := by
  decide

/-- C7 amended: a send while disconnected emits `websocket.error` and
transmits nothing; createGame, joinGame, rollDice and selectPiece rejected
while disconnected or with no active game emit one `game.error` event,
transmit nothing and leave the stored state unchanged; `requestGameState`
likewise returns without transmitting or changing state, but silently. -/
theorem rejectedActions_emit_error :
    (∀ (dest : String) (p : Payload),
      wsSend false dest p = ([WSEvent.wsError "Not connected"], []))
    ∧ (∀ s : GSState, s.isConnected = false →
        createGame s = (s, [GSEvent.gameError "Not connected to server"], [])
        ∧ ∀ gid, joinGame s gid = (s, [GSEvent.gameError "Not connected to server"], []))
    ∧ (∀ s : GSState, s.isConnected = false ∨ gameIdTruthy s.currentGameId = false →
        rollDice s = (s, [GSEvent.gameError "Not in an active game"], [])
        ∧ (∀ i, selectPiece s i = (s, [GSEvent.gameError "Not in an active game"], []))
        ∧ requestGameState s = (s, [], [])) := by
  refine ⟨fun dest p => rfl, fun s hs => ?_, fun s hs => ?_⟩
  · constructor
    · simp [createGame, hs]
    · intro gid
      simp [joinGame, hs]
  · have hguard : (!s.isConnected || !gameIdTruthy s.currentGameId) = true := by
      rcases hs with h | h <;> simp [h]
    refine ⟨?_, fun i => ?_, ?_⟩ <;>
      simp [rollDice, selectPiece, requestGameState, hguard]

/-- Witness for C7 at concrete disconnected states. -/
theorem rejectedActions_emit_error_witness :
    createGame gsDisconnected =
      (gsDisconnected, [GSEvent.gameError "Not connected to server"], [])
    ∧ rollDice gsDisconnected =
      (gsDisconnected, [GSEvent.gameError "Not in an active game"], []) :=
  ⟨(rejectedActions_emit_error.2.1 gsDisconnected rfl).1,
   (rejectedActions_emit_error.2.2 gsDisconnected (Or.inl rfl)).1⟩

/-- C8: a successful dice broadcast with non-empty message emits one
`dice.updated` event whose dies are the parsed first and second characters of
the message, and any die value representable this way is a single digit. -/
theorem handleDiceEvent_single_digits (m : String) (hm : m.isEmpty = false) :
    handleDiceEvent true m =
      [DiceEvent.diceUpdated (jsParseIntDigit (m.data.get? 0))
        (jsParseIntDigit (m.data.get? 1))]
    ∧ ∀ (oc : Option Char) (v : Nat), jsParseIntDigit oc = some v → v ≤ 9 := by
  constructor
  · simp [handleDiceEvent, hm]
  · rintro (_ | c) v h
    · simp [jsParseIntDigit] at h
    · simp only [jsParseIntDigit] at h
      by_cases hd : isDigitChar c = true
      · rw [if_pos hd] at h
        cases h
        simp only [isDigitChar, Bool.and_eq_true, decide_eq_true_eq] at hd
        have h0 : ('0').toNat = 48 := rfl
        rw [h0]
        omega
      · rw [if_neg hd] at h
        cases h

/-- Witness for C8 on the concrete roll message "66". -/
theorem handleDiceEvent_single_digits_witness :
    handleDiceEvent true "66" = [DiceEvent.diceUpdated (some 6) (some 6)] := by
  have h := (handleDiceEvent_single_digits "66" (by decide)).1
  rw [h]
  decide

/-- C9: `connect()` while already connected or connecting resolves
immediately and changes nothing — flags, session id and subscriptions are
all left untouched. -/
theorem connect_idempotent (s : WSState)
    (h : s.connected = true ∨ s.connecting = true) :
    wsConnect s = (s, ConnectOutcome.resolvedImmediately) := by
  have hcond : (s.connected || s.connecting) = true := by
    rcases h with h | h <;> simp [h]
  simp [wsConnect, hcond]

/-- Witness for C9 on a connected state. -/
theorem connect_idempotent_witness :
    wsConnect wsAfterConnect = (wsAfterConnect, ConnectOutcome.resolvedImmediately) :=
  connect_idempotent wsAfterConnect (Or.inl rfl)

/-- The caught fold of `emit` invokes every listener and returns normally,
whatever the accumulator. -/
theorem emitStep_foldlM {α : Type} (data : α) :
    ∀ (ls : List (Listener α)) (acc : List Nat),
      ls.foldlM (emitStep data) acc = Except.ok (acc ++ ls.map Listener.id) := by
  intro ls
  induction ls with
  | nil => intro acc; simp; rfl
  | cons l rest ih =>
    intro acc
    rw [List.foldlM_cons]
    have hstep : emitStep data acc l = Except.ok (acc ++ [l.id]) := by
      unfold emitStep
      cases hr : l.run data <;> rfl
    rw [hstep]
    show rest.foldlM (emitStep data) (acc ++ [l.id]) = _
    rw [ih (acc ++ [l.id])]
    simp

/-- C10: `emit` invokes every currently subscribed listener for the event
exactly once, in subscription order (the invocation log is exactly the
listener ids in order), and returns normally even when listeners throw — the
per-listener catch keeps a throwing listener from stopping the loop or
escaping `emit`. Subscription order is append order: `subscribe` pushes at
the end of the event's listener array. -/
theorem emit_invokes_all_in_order {α : Type}
    (bus : Bus α) (event : String) (data : α) (l : Listener α) :
    busEmit bus event data = Except.ok ((bus event).map Listener.id)
    ∧ busSubscribe bus event l event = bus event ++ [l] := by
  constructor
  · unfold busEmit
    exact emitStep_foldlM data (bus event) []
  · unfold busSubscribe
    simp

end Ludo
